import Mathlib

/-!
# Shallow embedding of the 6502-style CPU core in src/cpu.rs

Bytes and 16-bit words are modelled as natural numbers; every operation
that narrows a value in the Rust source does so here with an explicit
mask or modulus.  The backing store of the Rust struct is the array
`memory: [u8; 0xFFFF]`, so reads and writes are guarded by the bound
0xFFFF and return `Option` values: `none` is an index-out-of-bounds
panic.  The `run` loop is embedded with explicit fuel; `todo!("")` on an
unknown opcode becomes the payload-free outcome `todoPanic`, matching
the fact that the panic message is a constant that depends neither on
the opcode nor on the program counter.
-/

namespace NesCpu

/-- Size of the Rust backing array `[u8; 0xFFFF]`: 65535 bytes, so the
valid indices are 0 through 0xFFFE. -/
def MEM_SIZE : Nat := 0xFFFF

/-- The CPU state of `struct CPU`: registers `register_a`, `register_x`,
`status`, the 16-bit `program_counter`, and the memory, modelled as a
total function from addresses to stored bytes (bounds are enforced by
`mem_read` / `mem_write`). -/
structure CPU where
  register_a : Nat
  register_x : Nat
  status : Nat
  program_counter : Nat
  memory : Nat → Nat

/-- `CPU::new()`: all registers zero, memory zero-filled. -/
def CPU.new : CPU :=
  { register_a := 0, register_x := 0, status := 0, program_counter := 0,
    memory := fun _ => 0 }

/-- `mem_read`: `self.memory[addr as usize]`.  Indexing the 0xFFFF-byte
array out of bounds panics, modelled as `none`. -/
def mem_read (c : CPU) (addr : Nat) : Option Nat :=
  if addr < MEM_SIZE then some (c.memory addr) else none

/-- `mem_write`: `self.memory[addr as usize] = data`, with the same
bound as `mem_read`. -/
def mem_write (c : CPU) (addr data : Nat) : Option CPU :=
  if addr < MEM_SIZE then
    some { c with memory := fun a => if a = addr then data else c.memory a }
  else
    none

/-- `mem_read_u16`: little-endian, `(hi << 8) | lo` with `lo` read at
`pos` and `hi` at `pos + 1`. -/
def mem_read_u16 (c : CPU) (pos : Nat) : Option Nat :=
  (mem_read c pos).bind fun lo =>
    (mem_read c (pos + 1)).bind fun hi =>
      some ((hi <<< 8) ||| lo)

/-- `mem_write_u16`: the source computes `hi = (data >> 8) as u8` and
`lo = (data & 0b0000_1111) as u8` — note the 0x0F mask on the low byte,
kept faithfully here — then writes `lo` at `pos` and `hi` at `pos + 1`. -/
def mem_write_u16 (c : CPU) (pos data : Nat) : Option CPU :=
  (mem_write c pos (data &&& 0b00001111)).bind fun c1 =>
    mem_write c1 (pos + 1) ((data >>> 8) % 256)

/-- `reset()`: zero `register_a`, `register_x`, `status`, and load the
program counter from the reset vector at 0xFFFC. -/
def reset (c : CPU) : Option CPU :=
  (mem_read_u16 c 0xFFFC).bind fun pc =>
    some { c with register_a := 0, register_x := 0, status := 0,
                  program_counter := pc }

/-- `load(program)`: `self.memory[0x8000..(0x8000 + program.len())]
.copy_from_slice(&program)` — which panics when the slice end exceeds the
array length 0xFFFF — followed by `mem_write_u16(0xFFFC, 0x8000)`. -/
def load (c : CPU) (program : List Nat) : Option CPU :=
  if 0x8000 + program.length ≤ MEM_SIZE then
    mem_write_u16
      { c with memory := fun a =>
          if 0x8000 ≤ a ∧ a < 0x8000 + program.length then
            program.getD (a - 0x8000) 0
          else c.memory a }
      0xFFFC 0x8000
  else
    none

/-- `update_zero_and_negative_flags`: set/clear bit 1 of `status` from
`register == 0`, then set/clear bit 7 from `register & 0b1000_0000`,
each by OR with the bit or AND with its complement. -/
def update_zero_and_negative_flags (status register : Nat) : Nat :=
  let s1 := if register = 0 then status ||| 0b00000010
            else status &&& 0b11111101
  if register &&& 0b10000000 ≠ 0 then s1 ||| 0b10000000
  else s1 &&& 0b01111111

/-- `lda(value)`: `register_a = value`, then update flags from
`register_a`. -/
def lda (c : CPU) (value : Nat) : CPU :=
  let c1 := { c with register_a := value }
  { c1 with status := update_zero_and_negative_flags c1.status c1.register_a }

/-- `tax()`: `register_x = register_a`, then update flags from
`register_x`. -/
def tax (c : CPU) : CPU :=
  let c1 := { c with register_x := c.register_a }
  { c1 with status := update_zero_and_negative_flags c1.status c1.register_x }

/-- `inx()`: `register_x = register_x.wrapping_add(1)`, then update
flags from `register_x`. -/
def inx (c : CPU) : CPU :=
  let c1 := { c with register_x := (c.register_x + 1) % 256 }
  { c1 with status := update_zero_and_negative_flags c1.status c1.register_x }

/-- Outcome of one iteration of the `run` loop body. -/
inductive StepRes where
  | halted (c : CPU)
  | cont (c : CPU)
  | todoPanic
  | memPanic

/-- One iteration of the loop in `run()`: fetch the opcode byte at the
program counter, advance the counter, and dispatch.  The `0x00` arm
returns (`halted`); the wildcard arm hits `todo!("")`, a panic whose
message carries no data, hence the nullary `todoPanic`. -/
def step (c : CPU) : StepRes :=
  match mem_read c c.program_counter with
  | none => .memPanic
  | some opscode =>
    let c1 := { c with program_counter := (c.program_counter + 1) % 0x10000 }
    if opscode = 0xA9 then
      match mem_read c1 c1.program_counter with
      | none => .memPanic
      | some param =>
        let c2 := { c1 with
                    program_counter := (c1.program_counter + 1) % 0x10000 }
        .cont (lda c2 param)
    else if opscode = 0xAA then .cont (tax c1)
    else if opscode = 0xE8 then .cont (inx c1)
    else if opscode = 0x00 then .halted c1
    else .todoPanic

/-- Outcome of `run()` under a fuel bound. -/
inductive RunRes where
  | halted (c : CPU)
  | todoPanic
  | memPanic
  | outOfFuel (c : CPU)

/-- `run()` as iteration of `step` with explicit fuel: the Rust loop has
no step bound, so termination statements quantify over sufficient fuel. -/
def runFuel : Nat → CPU → RunRes
  | 0, c => .outOfFuel c
  | fuel + 1, c =>
    match step c with
    | .halted c1 => .halted c1
    | .cont c1 => runFuel fuel c1
    | .todoPanic => .todoPanic
    | .memPanic => .memPanic

/-- Iterated `step`, used to phrase "a byte is reached by normal fetch
sequencing": `stepN n c = cont c1` says the loop performs `n` complete
non-halting iterations from `c` and stands at `c1`. -/
def stepN : Nat → CPU → StepRes
  | 0, c => .cont c
  | n + 1, c =>
    match stepN n c with
    | .cont c1 => step c1
    | r => r

/-- `load_and_run(program)`: `load`, `reset`, `run` in sequence. -/
def load_and_run (c : CPU) (program : List Nat) (fuel : Nat) : Option RunRes :=
  (load c program).bind fun c1 =>
    (reset c1).bind fun c2 =>
      some (runFuel fuel c2)

/-- Concrete state for the LDA witness: opcode 0xA9 at address 0, the
operand 0x05 at address 1. -/
def ldaDemo : CPU :=
  { CPU.new with memory := fun a => if a = 0 then 0xA9
                                    else if a = 1 then 0x05 else 0 }

/-- Concrete state for the TAX witness: accumulator preset to 0x35,
opcode 0xAA at address 0. -/
def taxDemo : CPU :=
  { CPU.new with register_a := 0x35,
                 memory := fun a => if a = 0 then 0xAA else 0 }

/-- Concrete state for the INX witness: index register preset to 0xFF,
opcode 0xE8 at address 0. -/
def inxDemo : CPU :=
  { CPU.new with register_x := 0xFF,
                 memory := fun a => if a = 0 then 0xE8 else 0 }

/-- Concrete state for the halt witness: program counter at 0x8000,
where the zero-filled memory already holds the 0x00 opcode. -/
def haltDemo : CPU :=
  { CPU.new with program_counter := 0x8000 }

/-- Concrete loaded state for the reset witness: the one-byte program
[0x00] loaded into a fresh CPU. -/
def demoLoaded : CPU :=
  (load CPU.new [0x00]).getD CPU.new



theorem mem_read_some {c : CPU} {addr v : Nat} (h : mem_read c addr = some v) :
    addr < MEM_SIZE ∧ c.memory addr = v := by
  by_cases ha : addr < MEM_SIZE
  · refine ⟨ha, ?_⟩
    simpa [mem_read, ha] using h
  · simp [mem_read, ha] at h

theorem updFlags_bit1 (s v : Nat) :
    (update_zero_and_negative_flags s v).testBit 1 = decide (v = 0) := by
  have t2 : Nat.testBit 2 1 = true := by decide
  have t253 : Nat.testBit 253 1 = false := by decide
  have t128 : Nat.testBit 128 1 = false := by decide
  have t127 : Nat.testBit 127 1 = true := by decide
  unfold update_zero_and_negative_flags
  by_cases h0 : v = 0 <;> by_cases h7 : v &&& 128 = 0 <;>
    simp [h0, h7, Nat.testBit_lor, Nat.testBit_land, t2, t253, t128, t127]

theorem updFlags_bit7 (s v : Nat) :
    (update_zero_and_negative_flags s v).testBit 7 = decide (v &&& 128 ≠ 0) := by
  have t2 : Nat.testBit 2 7 = false := by decide
  have t253 : Nat.testBit 253 7 = true := by decide
  have t128 : Nat.testBit 128 7 = true := by decide
  have t127 : Nat.testBit 127 7 = false := by decide
  unfold update_zero_and_negative_flags
  by_cases h0 : v = 0 <;> by_cases h7 : v &&& 128 = 0 <;>
    simp [h0, h7, Nat.testBit_lor, Nat.testBit_land, t2, t253, t128, t127]



set_option maxRecDepth 4000 in
theorem land128_iff (v : Nat) (hv : v < 256) : v &&& 128 ≠ 0 ↔ 128 ≤ v := by
  revert hv
  revert v
  decide

theorem mem_read_set_pc (c : CPU) (x a : Nat) :
    mem_read { c with program_counter := x } a = mem_read c a := by
  simp [mem_read]

theorem step_lda {c : CPU} {v : Nat}
    (hop : mem_read c c.program_counter = some 0xA9)
    (harg : mem_read c (c.program_counter + 1) = some v) :
    step c = .cont (lda { c with program_counter := c.program_counter + 2 } v) := by
  have hpc : c.program_counter < 0xFFFF := (mem_read_some hop).1
  have hpc2 : c.program_counter + 1 < 0xFFFF := (mem_read_some harg).1
  have hm1 : (c.program_counter + 1) % 0x10000 = c.program_counter + 1 := by omega
  have hm2 : (c.program_counter + 1 + 1) % 0x10000 = c.program_counter + 2 := by omega
  simp [step, hop, hm1, hm2, mem_read_set_pc, harg]

theorem step_tax {c : CPU}
    (hop : mem_read c c.program_counter = some 0xAA) :
    step c = .cont (tax { c with program_counter := c.program_counter + 1 }) := by
  have hpc : c.program_counter < 0xFFFF := (mem_read_some hop).1
  have hm1 : (c.program_counter + 1) % 0x10000 = c.program_counter + 1 := by omega
  simp [step, hop, hm1]

theorem step_inx {c : CPU}
    (hop : mem_read c c.program_counter = some 0xE8) :
    step c = .cont (inx { c with program_counter := c.program_counter + 1 }) := by
  have hpc : c.program_counter < 0xFFFF := (mem_read_some hop).1
  have hm1 : (c.program_counter + 1) % 0x10000 = c.program_counter + 1 := by omega
  simp [step, hop, hm1]

theorem step_brk {c : CPU}
    (hop : mem_read c c.program_counter = some 0x00) :
    step c = .halted { c with program_counter := c.program_counter + 1 } := by
  have hpc : c.program_counter < 0xFFFF := (mem_read_some hop).1
  have hm1 : (c.program_counter + 1) % 0x10000 = c.program_counter + 1 := by omega
  simp [step, hop, hm1]

theorem runFuel_stepN : ∀ (n fuel : Nat) (c c1 : CPU),
    stepN n c = .cont c1 → runFuel (n + fuel) c = runFuel fuel c1 := by
  intro n
  induction n with
  | zero =>
    intro fuel c c1 h
    simp only [stepN] at h
    cases h
    rw [Nat.zero_add]
  | succ n ih =>
    intro fuel c c1 h
    simp only [stepN] at h
    cases hs : stepN n c with
    | cont cm =>
      rw [hs] at h
      simp only at h
      have harr : n + 1 + fuel = n + (fuel + 1) := by omega
      rw [harr, ih (fuel + 1) c cm hs]
      simp only [runFuel, h]
    | halted cm => rw [hs] at h; simp only at h; cases h
    | todoPanic => rw [hs] at h; simp only at h; cases h
    | memPanic => rw [hs] at h; simp only at h; cases h

theorem step_cont_memory {c c1 : CPU} (h : step c = .cont c1) :
    c1.memory = c.memory := by
  unfold step at h
  cases hr : mem_read c c.program_counter with
  | none => rw [hr] at h; cases h
  | some op =>
    rw [hr] at h
    simp only at h
    by_cases h1 : op = 0xA9
    · rw [if_pos h1] at h
      cases hr2 : mem_read
          { c with program_counter := (c.program_counter + 1) % 0x10000 }
          ((c.program_counter + 1) % 0x10000) with
      | none =>
        rw [hr2] at h; cases h
      | some param =>
        rw [hr2] at h
        simp only at h
        cases h
        simp [lda]
    · rw [if_neg h1] at h
      by_cases h2 : op = 0xAA
      · rw [if_pos h2] at h; cases h; simp [tax]
      · rw [if_neg h2] at h
        by_cases h3 : op = 0xE8
        · rw [if_pos h3] at h; cases h; simp [inx]
        · rw [if_neg h3] at h
          by_cases h4 : op = 0x00
          · rw [if_pos h4] at h; cases h
          · rw [if_neg h4] at h; cases h

theorem step_halted_memory {c c1 : CPU} (h : step c = .halted c1) :
    c1.memory = c.memory := by
  unfold step at h
  cases hr : mem_read c c.program_counter with
  | none => rw [hr] at h; cases h
  | some op =>
    rw [hr] at h
    simp only at h
    by_cases h1 : op = 0xA9
    · rw [if_pos h1] at h
      cases hr2 : mem_read
          { c with program_counter := (c.program_counter + 1) % 0x10000 }
          ((c.program_counter + 1) % 0x10000) with
      | none => rw [hr2] at h; cases h
      | some param => rw [hr2] at h; simp only at h; cases h
    · rw [if_neg h1] at h
      by_cases h2 : op = 0xAA
      · rw [if_pos h2] at h; cases h
      · rw [if_neg h2] at h
        by_cases h3 : op = 0xE8
        · rw [if_pos h3] at h; cases h
        · rw [if_neg h3] at h
          by_cases h4 : op = 0x00
          · rw [if_pos h4] at h; cases h; rfl
          · rw [if_neg h4] at h; cases h

theorem runFuel_halted_memory : ∀ (n : Nat) (c c1 : CPU),
    runFuel n c = .halted c1 → c1.memory = c.memory := by
  intro n
  induction n with
  | zero => intro c c1 h; cases h
  | succ n ih =>
    intro c c1 h
    simp only [runFuel] at h
    cases hs : step c with
    | halted cm =>
      rw [hs] at h
      simp only at h
      cases h
      exact step_halted_memory hs
    | cont cm =>
      rw [hs] at h
      simp only at h
      exact (ih cm c1 h).trans (step_cont_memory hs)
    | todoPanic => rw [hs] at h; simp only at h; cases h
    | memPanic => rw [hs] at h; simp only at h; cases h

theorem load_eq (c : CPU) (prog : List Nat) (hg : 0x8000 + prog.length ≤ 0xFFFF) :
    load c prog = some { c with memory := (fun a =>
      if a = 0xFFFD then 0x80
      else if a = 0xFFFC then 0
      else if 0x8000 ≤ a ∧ a < 0x8000 + prog.length then prog.getD (a - 0x8000) 0
      else c.memory a) } := by
  unfold load mem_write_u16 mem_write MEM_SIZE
  rw [if_pos hg]
  rw [if_pos (show (0xFFFC:Nat) < 0xFFFF by decide)]
  simp only [Option.bind]
  rw [if_pos (show (0xFFFC + 1:Nat) < 0xFFFF by decide)]
  rfl

theorem reset_eq {c : CPU} (h12 : c.memory 0xFFFC = 0) (h13 : c.memory 0xFFFD = 0x80) :
    reset c = some
      { c with register_a := 0, register_x := 0, status := 0, program_counter := 0x8000 } := by
  unfold reset mem_read_u16 mem_read MEM_SIZE
  rw [if_pos (show (0xFFFC:Nat) < 0xFFFF by decide)]
  rw [if_pos (show (0xFFFC + 1:Nat) < 0xFFFF by decide)]
  rw [h12, show (0xFFFC:Nat) + 1 = 0xFFFD by norm_num, h13]
  simp only [Option.bind]
  rw [show ((0x80:Nat) <<< 8) ||| 0 = 0x8000 by decide]

/-- Claim C1: the 16-bit write round-trip fails on the code: writing
0x00FF at 0x0010 and reading back yields 0x000F, because mem_write_u16
masks the low byte with 0b0000_1111. -/
theorem write16_read16_roundtrip_fails :
    ((mem_write_u16 CPU.new 0x0010 0x00FF).bind fun c1 => mem_read_u16 c1 0x0010)
      = some 0x000F ∧ (0x000F : Nat) ≠ 0x00FF :=
  ⟨rfl, by decide⟩

/-- Claim C2: an unknown opcode makes run hit todo!(""), a panic carrying
neither the opcode nor the program counter: the outcomes for the distinct
unimplemented opcodes 0x01 and 0x02 are the very same constant. -/
theorem unknown_opcode_panic_indistinct :
    Option.map (runFuel 8) ((load CPU.new [0x01]).bind reset) = some .todoPanic ∧
    Option.map (runFuel 8) ((load CPU.new [0x02]).bind reset) = some .todoPanic :=
  ⟨rfl, rfl⟩

/-- Claim C3 counterexample: address 0xFFFF is NOT accessible — the
backing array has only 0xFFFF bytes, so reading or writing the last
16-bit address is an out-of-bounds panic. -/
theorem mem_access_at_0xFFFF_fails :
    mem_read CPU.new 0xFFFF = none ∧ mem_write CPU.new 0xFFFF 0x42 = none :=
  ⟨rfl, rfl⟩

/-- Claim C3 (amended): for every address 0x0000 through 0xFFFE, read8
returns the stored byte and write8 stores the value, with no bounds
failure. -/
theorem mem_access_in_range_succeeds (c : CPU) (addr v : Nat) (h : addr ≤ 0xFFFE) :
    mem_read c addr = some (c.memory addr) ∧
    ∃ c1, mem_write c addr v = some c1 ∧ c1.memory addr = v := by
  have h' : addr < MEM_SIZE := by
    change addr < 0xFFFF
    omega
  refine ⟨by simp [mem_read, h'], ?_, ?_, ?_⟩
  · exact { c with memory := fun a => if a = addr then v else c.memory a }
  · simp [mem_write, h']
  · simp

/-- Claim C3 witness at address 0x1234 with value 0x42. -/
theorem mem_access_in_range_witness :
    mem_read CPU.new 0x1234 = some (CPU.new.memory 0x1234) ∧
    ∃ c1, mem_write CPU.new 0x1234 0x42 = some c1 ∧ c1.memory 0x1234 = 0x42 :=
  mem_access_in_range_succeeds CPU.new 0x1234 0x42 (by decide)

/-- Claim C4: if fetch sequencing reaches a 0x00 byte after n non-halting
steps, then run with any fuel beyond n halts, with the program counter one
past the address of the 0x00 byte. -/
theorem run_halts_after_brk (c c0 : CPU) (n : Nat)
    (hn : stepN n c = .cont c0)
    (hb : mem_read c0 c0.program_counter = some 0x00) :
    ∀ fuel : Nat, n < fuel →
      runFuel fuel c = .halted { c0 with program_counter := c0.program_counter + 1 } := by
  intro fuel hf
  have hsplit : fuel = n + (fuel - n) := by omega
  rw [hsplit, runFuel_stepN n (fuel - n) c c0 hn]
  obtain ⟨m, hm⟩ : ∃ m, fuel - n = m + 1 := ⟨fuel - n - 1, by omega⟩
  rw [hm]
  simp only [runFuel, step_brk hb]

/-- Claim C4 witness: one unit of fuel halts the demo state whose program
counter points at a 0x00 byte at 0x8000. -/
theorem run_halts_after_brk_witness :
    runFuel 1 haltDemo = .halted { haltDemo with program_counter := 0x8001 } :=
  run_halts_after_brk haltDemo haltDemo 0 rfl rfl 1 (by decide)

theorem updFlags_other (s v k : Nat) (h2 : Nat.testBit 2 k = false)
    (h253 : Nat.testBit 253 k = true) (h128 : Nat.testBit 128 k = false)
    (h127 : Nat.testBit 127 k = true) :
    (update_zero_and_negative_flags s v).testBit k = s.testBit k := by
  unfold update_zero_and_negative_flags
  by_cases h0 : v = 0 <;> by_cases h7 : v &&& 128 = 0 <;>
    simp [h0, h7, Nat.testBit_lor, Nat.testBit_land, h2, h253, h128, h127]

/-- Claim C5: LDA immediate loads the operand into the accumulator,
advances the program counter by two, and sets the Zero and Negative
flags from the operand; concretely, [0xA9, 0x05, 0x00] from a fresh
reset state ends with accumulator 0x05 and both flags clear. -/
theorem lda_immediate_spec :
    (∀ (c : CPU) (v : Nat), v < 256 →
      mem_read c c.program_counter = some 0xA9 →
      mem_read c (c.program_counter + 1) = some v →
      ∃ c2, step c = .cont c2 ∧
        c2.register_a = v ∧
        c2.program_counter = c.program_counter + 2 ∧
        (c2.status.testBit 1 = true ↔ v = 0) ∧
        (c2.status.testBit 7 = true ↔ 0x80 ≤ v)) ∧
    ∃ cf, load_and_run CPU.new [0xA9, 0x05, 0x00] 2 = some (.halted cf) ∧
      cf.register_a = 0x05 ∧ cf.status.testBit 1 = false ∧
      cf.status.testBit 7 = false := by
  constructor
  · intro c v hv hop harg
    refine ⟨_, step_lda hop harg, rfl, rfl, ?_, ?_⟩
    · rw [show (lda { c with program_counter := c.program_counter + 2 } v).status
          = update_zero_and_negative_flags c.status v from rfl, updFlags_bit1]
      simp
    · rw [show (lda { c with program_counter := c.program_counter + 2 } v).status
          = update_zero_and_negative_flags c.status v from rfl, updFlags_bit7]
      simp [land128_iff v hv]
  · exact ⟨_, rfl, rfl, rfl, rfl⟩

/-- Claim C5 witness: the general statement applied at the demo state
with operand 0x05. -/
theorem lda_immediate_witness :
    ∃ c2, step ldaDemo = .cont c2 ∧
      c2.register_a = 0x05 ∧
      c2.program_counter = ldaDemo.program_counter + 2 ∧
      (c2.status.testBit 1 = true ↔ (0x05 : Nat) = 0) ∧
      (c2.status.testBit 7 = true ↔ (0x80 : Nat) ≤ 0x05) :=
  lda_immediate_spec.1 ldaDemo 0x05 (by decide) rfl rfl

/-- Claim C6: TAX copies the accumulator into index_x, leaves the
accumulator unchanged, recomputes Zero and Negative from that value
alone, and advances the program counter by exactly one. -/
theorem tax_spec (c : CPU) (hv : c.register_a < 256)
    (hop : mem_read c c.program_counter = some 0xAA) :
    ∃ c2, step c = .cont c2 ∧
      c2.register_x = c.register_a ∧
      c2.register_a = c.register_a ∧
      c2.program_counter = c.program_counter + 1 ∧
      (c2.status.testBit 1 = true ↔ c.register_a = 0) ∧
      (c2.status.testBit 7 = true ↔ 0x80 ≤ c.register_a) := by
  refine ⟨_, step_tax hop, rfl, rfl, rfl, ?_, ?_⟩
  · rw [show (tax { c with program_counter := c.program_counter + 1 }).status
        = update_zero_and_negative_flags c.status c.register_a from rfl, updFlags_bit1]
    simp
  · rw [show (tax { c with program_counter := c.program_counter + 1 }).status
        = update_zero_and_negative_flags c.status c.register_a from rfl, updFlags_bit7]
    simp [land128_iff c.register_a hv]

/-- Claim C6 witness: TAX at the demo state with accumulator 0x35 and
index_x initially 0. -/
theorem tax_spec_witness :
    ∃ c2, step taxDemo = .cont c2 ∧
      c2.register_x = taxDemo.register_a ∧
      c2.register_a = taxDemo.register_a ∧
      c2.program_counter = taxDemo.program_counter + 1 ∧
      (c2.status.testBit 1 = true ↔ taxDemo.register_a = 0) ∧
      (c2.status.testBit 7 = true ↔ 0x80 ≤ taxDemo.register_a) :=
  tax_spec taxDemo (by decide) rfl

/-- Claim C7: INX increments index_x modulo 256 with no overflow failure
and recomputes the Zero and Negative flags from the new value; the
program counter advances by one. -/
theorem inx_wraparound_spec (c : CPU)
    (hop : mem_read c c.program_counter = some 0xE8) :
    ∃ c2, step c = .cont c2 ∧
      c2.register_x = (c.register_x + 1) % 256 ∧
      c2.program_counter = c.program_counter + 1 ∧
      (c2.status.testBit 1 = true ↔ (c.register_x + 1) % 256 = 0) ∧
      (c2.status.testBit 7 = true ↔ 0x80 ≤ (c.register_x + 1) % 256) := by
  refine ⟨_, step_inx hop, rfl, rfl, ?_, ?_⟩
  · rw [show (inx { c with program_counter := c.program_counter + 1 }).status
        = update_zero_and_negative_flags c.status ((c.register_x + 1) % 256) from rfl,
      updFlags_bit1]
    simp
  · rw [show (inx { c with program_counter := c.program_counter + 1 }).status
        = update_zero_and_negative_flags c.status ((c.register_x + 1) % 256) from rfl,
      updFlags_bit7]
    simp [land128_iff ((c.register_x + 1) % 256) (Nat.mod_lt _ (by norm_num))]

/-- Claim C7 witness: INX at the demo state with index_x preset to 0xFF
wraps to 0x00 and sets the Zero flag. -/
theorem inx_wraparound_witness :
    ∃ c2, step inxDemo = .cont c2 ∧
      c2.register_x = (inxDemo.register_x + 1) % 256 ∧
      c2.program_counter = inxDemo.program_counter + 1 ∧
      (c2.status.testBit 1 = true ↔ (inxDemo.register_x + 1) % 256 = 0) ∧
      (c2.status.testBit 7 = true ↔ 0x80 ≤ (inxDemo.register_x + 1) % 256) :=
  inx_wraparound_spec inxDemo rfl

/-- Claim C8: the shared flag update touches only bits 1 and 7 of the
status byte: bits 0, 2, 3, 4, 5 and 6 are identical before and after,
for every prior status and every register result. -/
theorem flags_update_preserves_reserved_bits (s v : Nat) :
    (update_zero_and_negative_flags s v).testBit 0 = s.testBit 0 ∧
    (update_zero_and_negative_flags s v).testBit 2 = s.testBit 2 ∧
    (update_zero_and_negative_flags s v).testBit 3 = s.testBit 3 ∧
    (update_zero_and_negative_flags s v).testBit 4 = s.testBit 4 ∧
    (update_zero_and_negative_flags s v).testBit 5 = s.testBit 5 ∧
    (update_zero_and_negative_flags s v).testBit 6 = s.testBit 6 :=
  ⟨updFlags_other s v 0 (by decide) (by decide) (by decide) (by decide),
   updFlags_other s v 2 (by decide) (by decide) (by decide) (by decide),
   updFlags_other s v 3 (by decide) (by decide) (by decide) (by decide),
   updFlags_other s v 4 (by decide) (by decide) (by decide) (by decide),
   updFlags_other s v 5 (by decide) (by decide) (by decide) (by decide),
   updFlags_other s v 6 (by decide) (by decide) (by decide) (by decide)⟩

/-- Claim C9: after a successful load, reset always restores accumulator,
index_x and status to 0 and the program counter to 0x8000 (the value the
reset vector yields), for any state sharing the loaded memory — hence
for any number of resets and any register mutations by intervening runs,
which (second conjunct) never change memory. -/
theorem reset_idempotent_after_load (c : CPU) (prog : List Nat) (c1 : CPU)
    (h : load c prog = some c1) :
    (∀ c2 : CPU, c2.memory = c1.memory →
        reset c2 = some { c2 with register_a := 0, register_x := 0, status := 0, program_counter := 0x8000 }) ∧
    (∀ (n : Nat) (c2 c3 : CPU), c2.memory = c1.memory →
        runFuel n c2 = .halted c3 → c3.memory = c1.memory) := by
  have hg : 0x8000 + prog.length ≤ 0xFFFF := by
    by_contra hng
    unfold load at h
    rw [if_neg (by change ¬(0x8000 + prog.length ≤ 0xFFFF); exact hng)] at h
    cases h
  have hc1 : load c prog = some { c with memory := (fun a =>
      if a = 0xFFFD then 0x80
      else if a = 0xFFFC then 0
      else if 0x8000 ≤ a ∧ a < 0x8000 + prog.length then prog.getD (a - 0x8000) 0
      else c.memory a) } := load_eq c prog hg
  rw [h] at hc1
  cases hc1
  constructor
  · intro c2 hm
    have h12 : c2.memory 0xFFFC = 0 := by rw [hm]; norm_num
    have h13 : c2.memory 0xFFFD = 0x80 := by rw [hm]; norm_num
    exact reset_eq h12 h13
  · intro n c2 c3 hm hr
    rw [runFuel_halted_memory n c2 c3 hr, hm]

/-- Claim C9 witness: resetting the concrete state obtained by loading
the program [0x00] into a fresh CPU. -/
theorem reset_idempotent_witness :
    reset demoLoaded = some { demoLoaded with register_a := 0, register_x := 0, status := 0, program_counter := 0x8000 } :=
  (reset_idempotent_after_load CPU.new [0x00] demoLoaded rfl).1 demoLoaded rfl

theorem getD_replicate (a d : Nat) : ∀ (n i : Nat), i < n →
    (List.replicate n a).getD i d = a := by
  intro n
  induction n with
  | zero => intro i hi; omega
  | succ n ih =>
    intro i hi
    cases i with
    | zero => rfl
    | succ i => exact ih i (by omega)


theorem load_keeps_vector_low_byte (c : CPU) (prog : List Nat)
    (hg : 0x8000 + prog.length ≤ 0xFFFF) :
    ((load c prog).bind fun c1 => mem_read c1 (0x8000 + 0x7FFC)) = some 0x00 := by
  rw [load_eq c prog hg]
  simp only [Option.bind]
  unfold mem_read
  rw [if_pos (show (0x8000 + 0x7FFC : Nat) < MEM_SIZE by decide)]
  norm_num

/-- Claim C10 counterexample: a program of length 0x7FFD fits in ROM
space, its byte at offset 0x7FFC is 0xAB, yet after load the memory at
0x8000 + 0x7FFC = 0xFFFC holds 0x00 — the reset-vector write overwrote
the copied byte — so load does not leave every program byte in memory. -/
theorem load_overlapping_vector_counterexample :
    0x8000 + (List.replicate 0x7FFD 0xAB).length ≤ 0xFFFF ∧
    (List.replicate 0x7FFD 0xAB).getD 0x7FFC 0 = 0xAB ∧
    ((load CPU.new (List.replicate 0x7FFD 0xAB)).bind
        fun c1 => mem_read c1 (0x8000 + 0x7FFC)) = some 0x00 := by
  have hlen : (List.replicate 0x7FFD 0xAB).length = 0x7FFD :=
    List.length_replicate 0x7FFD 0xAB
  have hg : 0x8000 + (List.replicate 0x7FFD 0xAB).length ≤ 0xFFFF := by
    rw [hlen]
    norm_num
  exact ⟨hg, getD_replicate 0xAB 0 0x7FFD 0x7FFC (by norm_num),
    load_keeps_vector_low_byte CPU.new (List.replicate 0x7FFD 0xAB) hg⟩
/-- Claim C10 (amended): for every program short enough not to overlap
the reset vector (length at most 0x7FFC), load copies the program bytes
to 0x8000.., makes a subsequent read16(0xFFFC) yield 0x8000, and leaves
all registers and the program counter unchanged. -/
theorem load_spec_amended (c : CPU) (prog : List Nat)
    (hlen : prog.length ≤ 0x7FFC) :
    ∃ c1, load c prog = some c1 ∧
      (∀ i, i < prog.length → mem_read c1 (0x8000 + i) = some (prog.getD i 0)) ∧
      mem_read_u16 c1 0xFFFC = some 0x8000 ∧
      c1.register_a = c.register_a ∧ c1.register_x = c.register_x ∧
      c1.status = c.status ∧ c1.program_counter = c.program_counter := by
  have hg : 0x8000 + prog.length ≤ 0xFFFF := by omega
  refine ⟨_, load_eq c prog hg, ?_, ?_, rfl, rfl, rfl, rfl⟩
  · intro i hi
    unfold mem_read
    rw [if_pos (show 0x8000 + i < MEM_SIZE by change _ < 0xFFFF; omega)]
    have h1 : ¬(0x8000 + i = 0xFFFD) := by omega
    have h2 : ¬(0x8000 + i = 0xFFFC) := by omega
    have h3 : 0x8000 ≤ 0x8000 + i ∧ 0x8000 + i < 0x8000 + prog.length :=
      ⟨by omega, by omega⟩
    simp only [if_neg h1, if_neg h2, if_pos h3]
    rw [Nat.add_sub_cancel_left]
  · have h12 : (0:Nat) = (0x8000:Nat) &&& 0b00001111 := by decide
    unfold mem_read_u16 mem_read
    rw [if_pos (show (0xFFFC:Nat) < MEM_SIZE by decide)]
    rw [if_pos (show (0xFFFC + 1:Nat) < MEM_SIZE by decide)]
    simp only [Option.bind]
    norm_num
    decide

/-- Claim C10 witness: loading the three-byte program [0xA9, 0x05, 0x00]
into a fresh CPU. -/
theorem load_spec_amended_witness :
    ∃ c1, load CPU.new [0xA9, 0x05, 0x00] = some c1 ∧
      (∀ i, i < (0xA9 :: 0x05 :: 0x00 :: List.nil).length →
        mem_read c1 (0x8000 + i) = some ((0xA9 :: 0x05 :: 0x00 :: List.nil).getD i 0)) ∧
      mem_read_u16 c1 0xFFFC = some 0x8000 ∧
      c1.register_a = CPU.new.register_a ∧ c1.register_x = CPU.new.register_x ∧
      c1.status = CPU.new.status ∧ c1.program_counter = CPU.new.program_counter :=
  load_spec_amended CPU.new [0xA9, 0x05, 0x00] (by norm_num)

end NesCpu
